import Mathlib

/-!
Verification of the interaction-cassette subsystem of `ozten/imagen`.

The development shallowly embeds the Rust sources:
  * `src/cassette/recorder.rs`  — `CassetteRecorder` (new / record / finish)
  * `src/cassette/replayer.rs`  — `CassetteReplayer` (new / next_interaction)
  * `src/cassette/config.rs`    — `load_cassette`
  * `src/adapters/recording/mod.rs`  — `record_result`
  * `src/adapters/replaying/mod.rs`  — `next_output`, `replay_result`
  * `src/adapters/replaying/image_generator.rs` — `ReplayingImageGenerator`

Modelling conventions:
  * `serde_json::Value` becomes the inductive `JVal`; `Value::get` and
    `Value::as_str` are embedded directly.
  * Rust's `HashMap` is modelled as an insertion-ordered association list
    (`HashMap` iteration order is unspecified in Rust; the claims only need
    lookup semantics and membership of the key set).
  * Panics become the `Except` error channel carrying a structured error
    value together with the panic's format string (`ReplayError.message`).
  * External effects (file system reads, `serde_yaml`/`serde_json`
    deserializers for caller types) are parameters of the embedded
    functions, exactly where the Rust code calls into the outside world.
-/

set_option autoImplicit false

namespace Imagen

/-- JSON-like structured value, modelling `serde_json::Value`.  Numbers are
modelled as integers (the cassette claims never exercise fractional
numbers); objects are key/value lists, looked up by first match. -/
inductive JVal where
  | null
  | bool (b : Bool)
  | num (n : Int)
  | str (s : String)
  | arr (elems : List JVal)
  | obj (fields : List (String × JVal))

/-- `Value::get(key)`: field lookup on objects, `None` on anything else. -/
def JVal.get (v : JVal) (key : String) : Option JVal :=
  match v with
  | .obj fields => fields.lookup key
  | _ => none

/-- `Value::as_str()`: the string payload of a string value. -/
def JVal.as_str : JVal → Option String
  | .str s => some s
  | _ => none

/-- One captured call (`Interaction` of `src/cassette/format.rs`, whose
fields are fixed by the struct literals in `recorder.rs`). -/
structure Interaction where
  seq : Nat
  port : String
  method : String
  input : JVal
  output : JVal

/-- A cassette (`Cassette` of `src/cassette/format.rs`): metadata plus the
ordered interaction log.  The capture timestamp is opaque to every claim and
is modelled as a natural number. -/
structure Cassette where
  name : String
  recorded_at : Nat
  commit : String
  interactions : List Interaction

/-- `CassetteRecorder` (recorder.rs): target path, metadata, accumulated
interactions and the global sequence counter. -/
structure CassetteRecorder where
  path : String
  name : String
  commit : String
  interactions : List Interaction
  next_seq : Nat

/-- `CassetteRecorder::new`. -/
def CassetteRecorder.new (path name commit : String) : CassetteRecorder :=
  { path := path, name := name, commit := commit, interactions := [], next_seq := 0 }

/-- `CassetteRecorder::record`: append an interaction carrying the current
counter value, then increment the counter. -/
def CassetteRecorder.record (r : CassetteRecorder) (port method : String)
    (input output : JVal) : CassetteRecorder :=
  { r with
    interactions :=
      r.interactions ++ [{ seq := r.next_seq, port := port, method := method,
                           input := input, output := output }]
    next_seq := r.next_seq + 1 }

/-- `CassetteRecorder::finish`, restricted to the cassette value it builds
and serializes (`Utc::now()` is passed in as `now`; the file-system write is
modelled by handing the encoded document to the loader, see
`encodeCassette`). -/
def CassetteRecorder.finish (r : CassetteRecorder) (now : Nat) : Cassette :=
  { name := r.name, recorded_at := now, commit := r.commit,
    interactions := r.interactions }

/-- Modelled from the spec: the persisted cassette document layout of §6 of
the spec (`src/cassette/format.rs`, which carries the serde data model, is
not among the sources).  An interaction is written as a record with fields
`seq`, `port`, `method`, `input`, `output` in that order. -/
def encodeInteraction (i : Interaction) : JVal :=
  .obj [("seq", .num (Int.ofNat i.seq)), ("port", .str i.port),
        ("method", .str i.method), ("input", i.input), ("output", i.output)]

/-- Modelled from the spec: decoding of one interaction record of the
persisted document (inverse of `encodeInteraction`). -/
def decodeInteraction (v : JVal) : Option Interaction :=
  match v with
  | .obj [("seq", .num (Int.ofNat n)), ("port", .str p), ("method", .str m),
          ("input", i), ("output", o)] =>
      some { seq := n, port := p, method := m, input := i, output := o }
  | _ => none

/-- Modelled from the spec: the whole-cassette document layout of §6
(`name`, `recorded_at`, `commit`, `interactions`). -/
def encodeCassette (c : Cassette) : JVal :=
  .obj [("name", .str c.name), ("recorded_at", .num (Int.ofNat c.recorded_at)),
        ("commit", .str c.commit),
        ("interactions", .arr (c.interactions.map encodeInteraction))]

/-- Modelled from the spec: decoding of the interaction array of the
persisted document; any element failing to decode fails the parse. -/
def decodeInteractions : List JVal → Option (List Interaction)
  | [] => some []
  | v :: rest =>
      match decodeInteraction v with
      | none => none
      | some i => (decodeInteractions rest).map fun is => i :: is

/-- Modelled from the spec: parsing a persisted cassette document (inverse
of `encodeCassette`); any shape mismatch is a parse failure. -/
def decodeCassette (v : JVal) : Option Cassette :=
  match v with
  | .obj [("name", .str n), ("recorded_at", .num (Int.ofNat t)),
          ("commit", .str c), ("interactions", .arr elems)] =>
      (decodeInteractions elems).map fun is =>
        { name := n, recorded_at := t, commit := c, interactions := is }
  | _ => none

/-- `PortMethodKey` (replayer.rs): the grouping key. -/
structure PortMethodKey where
  port : String
  method : String
deriving DecidableEq

/-- The grouping key of an interaction. -/
def keyOf (i : Interaction) : PortMethodKey :=
  { port := i.port, method := i.method }

/-- First-match lookup in an association list (the `HashMap::get` of the
model). -/
def findVal {α : Type} : List (PortMethodKey × α) → PortMethodKey → Option α
  | [], _ => none
  | (k, v) :: rest, key => if k = key then some v else findVal rest key

/-- In-place value update of an existing key (the `HashMap::get_mut` write
of the model); a missing key leaves the list unchanged. -/
def updateVal {α : Type} : List (PortMethodKey × α) → PortMethodKey → α →
    List (PortMethodKey × α)
  | [], _, _ => []
  | (k, v) :: rest, key, a =>
      if k = key then (k, a) :: rest else (k, v) :: updateVal rest key a

/-- `queues.entry(key).or_default().push(interaction)`: append to the
existing group, or create a fresh singleton group at the end. -/
def pushEntry : List (PortMethodKey × List Interaction) → PortMethodKey →
    Interaction → List (PortMethodKey × List Interaction)
  | [], key, i => [(key, [i])]
  | (k, q) :: rest, key, i =>
      if k = key then (k, q ++ [i]) :: rest else (k, q) :: pushEntry rest key i

/-- `CassetteReplayer` (replayer.rs): per-key queues and consumption
cursors. -/
structure CassetteReplayer where
  queues : List (PortMethodKey × List Interaction)
  cursors : List (PortMethodKey × Nat)

/-- `CassetteReplayer::new`: group the interactions by (port, method) in
encounter order and zero every cursor. -/
def CassetteReplayer.new (c : Cassette) : CassetteReplayer :=
  let queues := c.interactions.foldl (fun acc i => pushEntry acc (keyOf i) i) []
  { queues := queues, cursors := queues.map fun kv => (kv.1, 0) }

/-- `Vec::join(sep)` on strings, as used for the available-pairs listing. -/
def joinSep (sep : String) : List String → String
  | [] => ""
  | [s] => s
  | s :: rest => s ++ sep ++ joinSep sep rest

/-- One character of Rust's `{:?}` string escaping: quote, backslash and
the common control characters are escaped; other characters pass through
(the sources only ever format ASCII port/method names). -/
def escapeDebugChar (c : Char) : String :=
  if c = '"' then "\\\""
  else if c = '\\' then "\\\\"
  else if c = '\n' then "\\n"
  else if c = '\t' then "\\t"
  else if c = '\r' then "\\r"
  else String.singleton c

/-- Rust's `{:?}` formatting of a string: escaped and wrapped in quotes. -/
def rustDebug (s : String) : String :=
  "\"" ++ String.join (s.data.map escapeDebugChar) ++ "\""

/-- The panic exits of `CassetteReplayer::next_interaction`, as structured
values carrying the diagnostic data of the corresponding format string. -/
inductive ReplayError where
  | unknownPair (port method : String) (available : List String)
  | cursorMissing (port method : String)
  | exhausted (port method : String) (count : Nat)

/-- The panic message of each `ReplayError`, following the format strings of
`next_interaction` (a `\` line continuation in a Rust string literal joins
the lines with no inserted whitespace). -/
def ReplayError.message : ReplayError → String
  | .unknownPair port method available =>
      "Cassette exhausted: no interactions recorded for port=" ++
        rustDebug port ++ " method=" ++ rustDebug method ++
        ". Available port::method pairs: [" ++ joinSep ", " available ++ "]"
  | .cursorMissing _ _ => "cursor must exist"
  | .exhausted port method count =>
      "Cassette exhausted: all " ++ toString count ++
        " interactions for port=" ++ rustDebug port ++ " method=" ++
        rustDebug method ++ " have been consumed."

/-- `CassetteReplayer::next_interaction`: serve the next unconsumed record
for the pair and advance its cursor; the two panic exits (unknown pair,
exhausted group) are the `Except.error` cases. -/
def CassetteReplayer.next_interaction (r : CassetteReplayer)
    (port method : String) : Except ReplayError (Interaction × CassetteReplayer) :=
  let key : PortMethodKey := { port := port, method := method }
  match findVal r.queues key with
  | none =>
      .error (.unknownPair port method
        (r.queues.map fun kv => kv.1.port ++ "::" ++ kv.1.method))
  | some queue =>
      match findVal r.cursors key with
      | none => .error (.cursorMissing port method)
      | some cursor =>
          if h : cursor < queue.length then
            .ok (queue.get ⟨cursor, h⟩,
                 { r with cursors := updateVal r.cursors key (cursor + 1) })
          else
            .error (.exhausted port method queue.length)

/-- Run `n` successive `next_interaction` calls for one (port, method)
pair, collecting each outcome; a panic aborts the run (no further calls
happen), mirroring the Rust control flow. -/
def runNext : CassetteReplayer → String → String → Nat →
    List (Except ReplayError Interaction) × CassetteReplayer
  | r, _, _, 0 => ([], r)
  | r, port, method, n + 1 =>
      match r.next_interaction port method with
      | .ok (i, r') =>
          let rest := runNext r' port method n
          (.ok i :: rest.1, rest.2)
      | .error e => ([.error e], r)

/-- One `record` call, as data: port, method, input, output. -/
abbrev RecordCall : Type := String × String × JVal × JVal

/-- Fold a sequence of `record` calls over a recorder. -/
def recordAll (r : CassetteRecorder) : List RecordCall → CassetteRecorder
  | [] => r
  | (p, m, i, o) :: rest => recordAll (r.record p m i o) rest

/-- The interactions a call sequence produces when numbering starts at
`start`. -/
def callsToInteractions (start : Nat) : List RecordCall → List Interaction
  | [] => []
  | (p, m, i, o) :: rest =>
      { seq := start, port := p, method := m, input := i, output := o } ::
        callsToInteractions (start + 1) rest

/-- The group of a cassette's interactions belonging to one key, in
original order. -/
def groupOf (c : Cassette) (k : PortMethodKey) : List Interaction :=
  c.interactions.filter fun i => keyOf i = k

/-- `load_cassette` (config.rs).  The file-system read and the `serde_yaml`
parse are the two external calls and enter as parameters: `fsRead` models
`std::fs::read_to_string` (error: the I/O error's display), `parseC` models
`serde_yaml::from_str::<Cassette>` (error: the parse error's display). -/
def load_cassette (fsRead : String → Except String String)
    (parseC : String → Except String Cassette) (path : String) :
    Except String CassetteReplayer :=
  match fsRead path with
  | .error e => .error ("Failed to read cassette file " ++ path ++ ": " ++ e)
  | .ok content =>
      match parseC content with
      | .error e => .error ("Failed to parse cassette file " ++ path ++ ": " ++ e)
      | .ok cassette => .ok (CassetteReplayer.new cassette)

/-- `record_result` (adapters/recording/mod.rs), with the caller's `Ok`
value already serialized to `JVal` (`serde_json::to_value`) and the error
already rendered by `Display` (`e.to_string()`): tag the outcome with the
`Ok`/`Err` convention and record it. -/
def record_result (r : CassetteRecorder) (port method : String) (input : JVal)
    (result : Except String JVal) : CassetteRecorder :=
  let output : JVal := match result with
    | .ok v => .obj [("Ok", v)]
    | .error e => .obj [("Err", .str e)]
  r.record port method input output

/-- `replay_result` (adapters/replaying/mod.rs): decode a replayed output.
`dec` models `serde_json::from_value::<T>` for the caller's type, with
deserialization failures as error strings. -/
def replay_result {α : Type} (dec : JVal → Except String α) (output : JVal) :
    Except String α :=
  match (output.get "Err").or (output.get "err") with
  | some errVal => .error ((errVal.as_str).getD "replayed error")
  | none =>
      match (output.get "Ok").or (output.get "ok") with
      | some okVal => dec okVal
      | none => dec output

/-- `ImageRequest` (ports/image_generator.rs). -/
structure ImageRequest where
  model : String
  prompt : String
  aspect_ratio : String
  size : String
  quality : String
  format : String
  count : Nat
  thinking : Option String

/-- `GeneratedImage` (ports/image_generator.rs); raw bytes as naturals. -/
structure GeneratedImage where
  data : List Nat
  mime_type : String

/-- `ImageResponse` (ports/image_generator.rs). -/
structure ImageResponse where
  images : List GeneratedImage

/-- `ImageError` (error.rs); the payloads of the variants carrying external
error types are modelled by their display strings. -/
inductive ImageError where
  | Api (status : Nat) (message : String)
  | Network (e : String)
  | Io (e : String)
  | Config (msg : String)
  | InvalidArgument (msg : String)
  | ImageConversion (msg : String)
  | MissingApiKey (provider env_var : String)

/-- The panic exits of `next_output` (adapters/replaying/mod.rs): no
cassette configured, or a replayer panic. -/
inductive ReplayPanic where
  | noCassette (port : String)
  | replay (e : ReplayError)

/-- `next_output` (adapters/replaying/mod.rs): unwrap the optional
replayer, fetch the next interaction for the pair, and clone its output. -/
def next_output (replayer : Option CassetteReplayer) (port method : String) :
    Except ReplayPanic (JVal × CassetteReplayer) :=
  match replayer with
  | none => .error (.noCassette port)
  | some r =>
      match r.next_interaction port method with
      | .error e => .error (.replay e)
      | .ok (i, r') => .ok (i.output, r')

/-- `ReplayingImageGenerator` (adapters/replaying/image_generator.rs). -/
structure ReplayingImageGenerator where
  replayer : Option CassetteReplayer

/-- `ReplayingImageGenerator::new`. -/
def ReplayingImageGenerator.new (r : CassetteReplayer) : ReplayingImageGenerator :=
  { replayer := some r }

/-- `ReplayingImageGenerator::generate`: fetch the next recorded output for
the fixed pair ("image_generator", "generate"), decode it with
`replay_result`, and map decode failures to `ImageError::Api` with status 0.
`dec` models `serde_json::from_value::<ImageResponse>`; the request argument
is taken but never consulted, as in the source. -/
def ReplayingImageGenerator.generate (g : ReplayingImageGenerator)
    (dec : JVal → Except String ImageResponse) (_request : ImageRequest) :
    Except ReplayPanic (Except ImageError ImageResponse × CassetteReplayer) :=
  match next_output g.replayer "image_generator" "generate" with
  | .error e => .error e
  | .ok (output, r') =>
      .ok ((replay_result dec output).mapError fun e => ImageError.Api 0 e, r')

/-- Sample interaction mirroring the repository's own test fixture (the
"a cat" generate call of recorder.rs's tests). -/
def sampleCat : Interaction :=
  { seq := 0, port := "image_generator", method := "generate",
    input := .obj [("prompt", .str "a cat")],
    output := .obj [("Ok", .obj [("images", .arr [])])] }

/-- Sample interaction for a second, distinct (port, method) pair. -/
def sampleOther : Interaction :=
  { seq := 1, port := "other_port", method := "other_method",
    input := .null, output := .null }

/-- Sample cassette holding one interaction for each of two pairs. -/
def sampleMixedCassette : Cassette :=
  { name := "test-recording", recorded_at := 0, commit := "deadbeef",
    interactions := [sampleCat, sampleOther] }

/-- The replayer loaded from the sample cassette. -/
def sampleMixedReplayer : CassetteReplayer :=
  CassetteReplayer.new sampleMixedCassette

/-- The sample replayer after serving the ("image_generator", "generate")
record once. -/
def sampleMixedAfter : CassetteReplayer :=
  { queues := sampleMixedReplayer.queues
    cursors := updateVal sampleMixedReplayer.cursors
      ⟨"image_generator", "generate"⟩ 1 }

/-! ### Association-list lemmas -/

/-- Lookup after zeroing the values of an association list (the cursor
initialization of `CassetteReplayer::new`). -/
theorem findVal_map_zero (l : List (PortMethodKey × List Interaction))
    (k : PortMethodKey) :
    findVal (l.map fun kv => (kv.1, (0 : Nat))) k =
      (findVal l k).map fun _ => 0 := by
  induction l with
  | nil => rfl
  | cons hd tl ih =>
      obtain ⟨hk, hv⟩ := hd
      by_cases h : hk = k <;> simp [findVal, h, ih]

/-- Updating a key rewrites exactly that key's value (when present). -/
theorem findVal_updateVal_self {α : Type} (l : List (PortMethodKey × α))
    (k : PortMethodKey) (a : α) :
    findVal (updateVal l k a) k = (findVal l k).map fun _ => a := by
  induction l with
  | nil => rfl
  | cons hd tl ih =>
      obtain ⟨hk, hv⟩ := hd
      by_cases h : hk = k
      · subst h; simp [findVal, updateVal]
      · simp [findVal, updateVal, h, ih]

/-- Updating one key leaves every other key's value unchanged. -/
theorem findVal_updateVal_other {α : Type} (l : List (PortMethodKey × α))
    (k k' : PortMethodKey) (a : α) (hne : k ≠ k') :
    findVal (updateVal l k a) k' = findVal l k' := by
  induction l with
  | nil => rfl
  | cons hd tl ih =>
      obtain ⟨hk, hv⟩ := hd
      by_cases h : hk = k
      · subst h
        have h2 : hk ≠ k' := hne
        simp [findVal, updateVal, h2]
      · by_cases h2 : hk = k'
        · subst h2
          simp [findVal, updateVal, h, ih]
        · simp [findVal, updateVal, h, h2, ih]

/-- Lookup through `pushEntry`: the pushed key gains the pushed element at
the end of its (possibly fresh) group; other keys are untouched. -/
theorem findVal_pushEntry (l : List (PortMethodKey × List Interaction))
    (k k' : PortMethodKey) (i : Interaction) :
    findVal (pushEntry l k i) k' =
      if k' = k then some ((findVal l k).getD [] ++ [i]) else findVal l k' := by
  induction l with
  | nil =>
      by_cases h : k' = k
      · subst h; simp [pushEntry, findVal]
      · simp [pushEntry, findVal, h, Ne.symm h]
  | cons hd tl ih =>
      obtain ⟨hk, hv⟩ := hd
      by_cases h : hk = k
      · subst h
        by_cases h2 : k' = hk
        · subst h2; simp [pushEntry, findVal]
        · simp [pushEntry, findVal, h2, Ne.symm h2]
      · by_cases h2 : hk = k'
        · subst h2
          simp [pushEntry, findVal, h, ih, Ne.symm h]
        · simp [pushEntry, findVal, h, h2, ih]

/-- A found key is among the stored keys. -/
theorem findVal_mem_keys {α : Type} (l : List (PortMethodKey × α))
    (k : PortMethodKey) (v : α) (h : findVal l k = some v) :
    ∃ kv ∈ l, kv.1 = k := by
  induction l with
  | nil => cases h
  | cons hd tl ih =>
      obtain ⟨hk, hv⟩ := hd
      by_cases hh : hk = k
      · exact ⟨(hk, hv), List.mem_cons_self _ _, hh⟩
      · simp only [findVal, if_neg hh] at h
        obtain ⟨kv, hmem, hkv⟩ := ih h
        exact ⟨kv, List.mem_cons_of_mem _ hmem, hkv⟩

/-! ### Grouping: `CassetteReplayer.new` builds the per-key filter -/

/-- Folding `pushEntry` appends each matching interaction to the group of
its key: the already-present case. -/
theorem foldl_pushEntry_some (is : List Interaction) :
    ∀ (acc : List (PortMethodKey × List Interaction)) (k : PortMethodKey)
      (q : List Interaction), findVal acc k = some q →
      findVal (is.foldl (fun a i => pushEntry a (keyOf i) i) acc) k =
        some (q ++ is.filter fun i => decide (keyOf i = k)) := by
  induction is with
  | nil => intro acc k q h; simpa using h
  | cons hd tl ih =>
      intro acc k q h
      by_cases hk : keyOf hd = k
      · subst hk
        have step : findVal (pushEntry acc (keyOf hd) hd) (keyOf hd) =
            some (q ++ [hd]) := by
          rw [findVal_pushEntry]; simp [h]
        have htl := ih (pushEntry acc (keyOf hd) hd) (keyOf hd) (q ++ [hd]) step
        simpa [List.filter, List.append_assoc] using htl
      · have step : findVal (pushEntry acc (keyOf hd) hd) k = findVal acc k := by
          rw [findVal_pushEntry, if_neg (Ne.symm hk)]
        have htl := ih (pushEntry acc (keyOf hd) hd) k q (step.trans h)
        simpa [List.filter, hk] using htl

/-- Folding `pushEntry` starting from an accumulator not containing the
key, when no interaction matches the key: the key stays absent. -/
theorem foldl_pushEntry_none_nil (is : List Interaction) :
    ∀ (acc : List (PortMethodKey × List Interaction)) (k : PortMethodKey),
      findVal acc k = none →
      (is.filter fun i => decide (keyOf i = k)) = [] →
      findVal (is.foldl (fun a i => pushEntry a (keyOf i) i) acc) k = none := by
  induction is with
  | nil => intro acc k h _; simpa using h
  | cons hd tl ih =>
      intro acc k h hfil
      by_cases hk : keyOf hd = k
      · simp [List.filter, hk] at hfil
      · have step : findVal (pushEntry acc (keyOf hd) hd) k = findVal acc k := by
          rw [findVal_pushEntry, if_neg (Ne.symm hk)]
        rw [List.foldl_cons]
        exact ih (pushEntry acc (keyOf hd) hd) k (step.trans h)
          (by simpa [List.filter, hk] using hfil)

/-- Folding `pushEntry` starting from an accumulator not containing the
key, when some interaction matches: the key's group is exactly the
filter. -/
theorem foldl_pushEntry_none_cons (is : List Interaction) :
    ∀ (acc : List (PortMethodKey × List Interaction)) (k : PortMethodKey),
      findVal acc k = none →
      (is.filter fun i => decide (keyOf i = k)) ≠ [] →
      findVal (is.foldl (fun a i => pushEntry a (keyOf i) i) acc) k =
        some (is.filter fun i => decide (keyOf i = k)) := by
  induction is with
  | nil => intro acc k _ hfil; simp at hfil
  | cons hd tl ih =>
      intro acc k h hfil
      by_cases hk : keyOf hd = k
      · subst hk
        have step : findVal (pushEntry acc (keyOf hd) hd) (keyOf hd) =
            some [hd] := by
          rw [findVal_pushEntry]; simp [h]
        have htl := foldl_pushEntry_some tl (pushEntry acc (keyOf hd) hd)
          (keyOf hd) [hd] step
        simpa [List.filter] using htl
      · have step : findVal (pushEntry acc (keyOf hd) hd) k = findVal acc k := by
          rw [findVal_pushEntry, if_neg (Ne.symm hk)]
        have htl := ih (pushEntry acc (keyOf hd) hd) k (step.trans h)
          (by simpa [List.filter, hk] using hfil)
        simpa [List.filter, hk] using htl

/-- The queues of a freshly built replayer: a key whose group is empty is
absent. -/
theorem new_queues_findVal_nil (c : Cassette) (k : PortMethodKey)
    (h : groupOf c k = []) :
    findVal (CassetteReplayer.new c).queues k = none := by
  have := foldl_pushEntry_none_nil c.interactions [] k rfl (by simpa [groupOf] using h)
  simpa [CassetteReplayer.new] using this

/-- The queues of a freshly built replayer: a key with a nonempty group
maps to exactly that group. -/
theorem new_queues_findVal_group (c : Cassette) (k : PortMethodKey)
    (h : groupOf c k ≠ []) :
    findVal (CassetteReplayer.new c).queues k = some (groupOf c k) := by
  have := foldl_pushEntry_none_cons c.interactions [] k rfl
    (by simpa [groupOf] using h)
  simpa [CassetteReplayer.new, groupOf] using this

/-- The cursors of a freshly built replayer: zero wherever a queue
exists. -/
theorem new_cursors_findVal (c : Cassette) (k : PortMethodKey) :
    findVal (CassetteReplayer.new c).cursors k =
      (findVal (CassetteReplayer.new c).queues k).map fun _ => 0 := by
  simpa [CassetteReplayer.new] using
    findVal_map_zero
      (c.interactions.foldl (fun acc i => pushEntry acc (keyOf i) i) []) k

/-! ### `next_interaction` characterizations -/

/-- Unknown (port, method): the panic reports the pair and the pairs
present. -/
theorem next_interaction_unknown (r : CassetteReplayer) (p m : String)
    (hq : findVal r.queues ⟨p, m⟩ = none) :
    r.next_interaction p m =
      .error (.unknownPair p m
        (r.queues.map fun kv => kv.1.port ++ "::" ++ kv.1.method)) := by
  simp [CassetteReplayer.next_interaction, hq]

/-- Cursor strictly inside the group: the record at the cursor is served
and only that pair's cursor advances. -/
theorem next_interaction_ok (r : CassetteReplayer) (p m : String)
    (q : List Interaction) (cur : Nat)
    (hq : findVal r.queues ⟨p, m⟩ = some q)
    (hc : findVal r.cursors ⟨p, m⟩ = some cur) (hlt : cur < q.length) :
    r.next_interaction p m =
      .ok (q.get ⟨cur, hlt⟩,
           { r with cursors := updateVal r.cursors ⟨p, m⟩ (cur + 1) }) := by
  simp [CassetteReplayer.next_interaction, hq, hc, hlt]

/-- Cursor at the end of the group: the exhaustion panic reports the
group's size. -/
theorem next_interaction_exhausted (r : CassetteReplayer) (p m : String)
    (q : List Interaction) (cur : Nat)
    (hq : findVal r.queues ⟨p, m⟩ = some q)
    (hc : findVal r.cursors ⟨p, m⟩ = some cur) (hge : ¬ cur < q.length) :
    r.next_interaction p m = .error (.exhausted p m q.length) := by
  simp [CassetteReplayer.next_interaction, hq, hc, hge]

/-- Inversion: a successful call only advances the served pair's cursor;
the queues and every other cursor entry are untouched. -/
theorem next_interaction_ok_inv (r : CassetteReplayer) (p m : String)
    (i : Interaction) (r' : CassetteReplayer)
    (hok : r.next_interaction p m = .ok (i, r')) :
    r'.queues = r.queues ∧ ∃ cur, findVal r.cursors ⟨p, m⟩ = some cur ∧
      r'.cursors = updateVal r.cursors ⟨p, m⟩ (cur + 1) := by
  simp only [CassetteReplayer.next_interaction] at hok
  split at hok
  · exact Except.noConfusion hok
  · rename_i q hq
    split at hok
    · exact Except.noConfusion hok
    · rename_i cur hc
      split at hok
      · rename_i hlt
        rw [Except.ok.injEq, Prod.mk.injEq] at hok
        obtain ⟨-, hr⟩ := hok
        exact hr ▸ ⟨rfl, cur, hc, rfl⟩
      · exact Except.noConfusion hok

/-! ### Sequential runs -/

/-- One successful step of a run. -/
theorem runNext_succ_ok (r : CassetteReplayer) (p m : String) (n : Nat)
    (i : Interaction) (r' : CassetteReplayer)
    (h : r.next_interaction p m = .ok (i, r')) :
    runNext r p m (n + 1) =
      (.ok i :: (runNext r' p m n).1, (runNext r' p m n).2) := by
  simp [runNext, h]

/-- One failing step of a run: the panic aborts it. -/
theorem runNext_succ_err (r : CassetteReplayer) (p m : String) (n : Nat)
    (e : ReplayError) (h : r.next_interaction p m = .error e) :
    runNext r p m (n + 1) = ([.error e], r) := by
  simp [runNext, h]

/-- A run that stays strictly inside the group serves the queue's slice
`[cur, cur+n)` in order and advances only that pair's cursor. -/
theorem runNext_ok_run (n : Nat) :
    ∀ (r : CassetteReplayer) (p m : String) (q : List Interaction) (cur : Nat),
      findVal r.queues ⟨p, m⟩ = some q →
      findVal r.cursors ⟨p, m⟩ = some cur →
      cur + n ≤ q.length →
      (runNext r p m n).1 = ((q.drop cur).take n).map Except.ok ∧
      (runNext r p m n).2.queues = r.queues ∧
      findVal (runNext r p m n).2.cursors ⟨p, m⟩ = some (cur + n) ∧
      ∀ k', k' ≠ (⟨p, m⟩ : PortMethodKey) →
        findVal (runNext r p m n).2.cursors k' = findVal r.cursors k' := by
  induction n with
  | zero =>
      intro r p m q cur _ hc _
      exact ⟨rfl, rfl, by simpa using hc, fun k' _ => rfl⟩
  | succ n ih =>
      intro r p m q cur hq hc hle
      have hlt : cur < q.length := by omega
      have hstep := next_interaction_ok r p m q cur hq hc hlt
      have hc' : findVal
          ({ r with cursors := updateVal r.cursors ⟨p, m⟩ (cur + 1) } :
            CassetteReplayer).cursors ⟨p, m⟩ = some (cur + 1) := by
        simp [findVal_updateVal_self, hc]
      obtain ⟨h1, h2, h3, h4⟩ :=
        ih { r with cursors := updateVal r.cursors ⟨p, m⟩ (cur + 1) }
          p m q (cur + 1) hq hc' (by omega)
      have hr := runNext_succ_ok r p m n _ _ hstep
      refine ⟨?_, ?_, ?_, ?_⟩
      · simp only [hr, h1]
        rw [List.drop_eq_getElem_cons hlt, List.take_succ_cons, List.map_cons]
        simp
      · simp only [hr]
        exact h2
      · simp only [hr, h3]
        congr 1
        omega
      · intro k' hk'
        simp only [hr, h4 k' hk']
        exact findVal_updateVal_other _ _ _ _ (Ne.symm hk')

/-- A run of one call more than the group holds (starting at `cur`,
`n = length - cur` remaining) serves the tail of the queue and then the
exhaustion panic naming the group's size. -/
theorem runNext_exhaust_run (n : Nat) :
    ∀ (r : CassetteReplayer) (p m : String) (q : List Interaction) (cur : Nat),
      findVal r.queues ⟨p, m⟩ = some q →
      findVal r.cursors ⟨p, m⟩ = some cur →
      cur + n = q.length →
      (runNext r p m (n + 1)).1 =
        ((q.drop cur).map Except.ok) ++
          [.error (.exhausted p m q.length)] := by
  induction n with
  | zero =>
      intro r p m q cur hq hc h0
      have hge : ¬ cur < q.length := by omega
      have hstep := next_interaction_exhausted r p m q cur hq hc hge
      have hdrop : q.drop cur = [] := List.drop_eq_nil_of_le (by omega)
      simp [runNext, hstep, hdrop]
  | succ n ih =>
      intro r p m q cur hq hc hsum
      have hlt : cur < q.length := by omega
      have hstep := next_interaction_ok r p m q cur hq hc hlt
      have hc' : findVal
          ({ r with cursors := updateVal r.cursors ⟨p, m⟩ (cur + 1) } :
            CassetteReplayer).cursors ⟨p, m⟩ = some (cur + 1) := by
        simp [findVal_updateVal_self, hc]
      have htl := ih { r with cursors := updateVal r.cursors ⟨p, m⟩ (cur + 1) }
        p m q (cur + 1) hq hc' (by omega)
      have hr := runNext_succ_ok r p m (n + 1) _ _ hstep
      simp only [hr, htl]
      rw [List.drop_eq_getElem_cons hlt, List.map_cons, List.cons_append]
      rfl

/-! ### Recorder runs -/

/-- A sequence of `record` calls appends the numbered interactions and
advances the counter by the number of calls. -/
theorem recordAll_spec (calls : List RecordCall) :
    ∀ r : CassetteRecorder,
      recordAll r calls =
        { r with
          interactions := r.interactions ++ callsToInteractions r.next_seq calls
          next_seq := r.next_seq + calls.length } := by
  induction calls with
  | nil => intro r; simp [recordAll, callsToInteractions]
  | cons hd tl ih =>
      intro r
      obtain ⟨p, m, i, o⟩ := hd
      rw [recordAll, ih]
      simp only [CassetteRecorder.record, callsToInteractions, List.length_cons,
        List.append_assoc, List.singleton_append, CassetteRecorder.mk.injEq,
        true_and, and_true]
      omega

/-- The sequence numbers produced by `callsToInteractions` count up from
the start value. -/
theorem callsToInteractions_map_seq (calls : List RecordCall) :
    ∀ s : Nat, (callsToInteractions s calls).map (fun i => i.seq) =
      List.range' s calls.length := by
  induction calls with
  | nil => intro s; rfl
  | cons hd tl ih =>
      intro s
      obtain ⟨p, m, i, o⟩ := hd
      simp [callsToInteractions, ih, List.range'_succ]

/-- `callsToInteractions` produces one interaction per call. -/
theorem callsToInteractions_length (calls : List RecordCall) :
    ∀ s : Nat, (callsToInteractions s calls).length = calls.length := by
  induction calls with
  | nil => intro s; rfl
  | cons hd tl ih =>
      intro s
      obtain ⟨p, m, i, o⟩ := hd
      simp [callsToInteractions, ih]

/-- Indexing the interactions of a same-pair call sequence. -/
theorem callsToInteractions_same_pair (port method : String)
    (ps : List (JVal × JVal)) :
    ∀ (s k : Nat) (h : k < ps.length),
      (callsToInteractions s
          (ps.map fun io => (port, method, io.1, io.2)))[k]? =
        some { seq := s + k, port := port, method := method,
               input := (ps.get ⟨k, h⟩).1, output := (ps.get ⟨k, h⟩).2 } := by
  induction ps with
  | nil => intro s k h; cases h
  | cons hd tl ih =>
      intro s k h
      cases k with
      | zero => simp [callsToInteractions]
      | succ k =>
          have htl := ih (s + 1) k (by simpa using Nat.lt_of_succ_lt_succ h)
          simp only [List.map_cons, callsToInteractions, List.getElem?_cons_succ,
            htl]
          refine congrArg some ?_
          simp [Nat.add_assoc, Nat.add_comm 1 k]

/-- Every interaction of a same-pair call sequence carries that pair. -/
theorem callsToInteractions_same_pair_mem (port method : String)
    (ps : List (JVal × JVal)) :
    ∀ (s : Nat) (x : Interaction),
      x ∈ callsToInteractions s (ps.map fun io => (port, method, io.1, io.2)) →
      keyOf x = ⟨port, method⟩ := by
  induction ps with
  | nil => intro s x hx; cases hx
  | cons hd tl ih =>
      intro s x hx
      simp only [List.map_cons, callsToInteractions, List.mem_cons] at hx
      rcases hx with hx | hx
      · subst hx; rfl
      · exact ih (s + 1) x hx

/-! ### Cassette document round trip (spec-modelled codec) -/

/-- Decoding inverts encoding on a single interaction. -/
theorem decodeInteraction_encodeInteraction (i : Interaction) :
    decodeInteraction (encodeInteraction i) = some i := rfl

/-- Decoding inverts encoding on interaction lists. -/
theorem decodeInteractions_map (is : List Interaction) :
    decodeInteractions (is.map encodeInteraction) = some is := by
  induction is with
  | nil => rfl
  | cons hd tl ih =>
      simp [decodeInteractions, decodeInteraction_encodeInteraction, ih]

/-- Decoding inverts encoding on whole cassettes: the persisted document
reloads to the identical cassette value. -/
theorem decodeCassette_encodeCassette (c : Cassette) :
    decodeCassette (encodeCassette c) = some c := by
  show (decodeInteractions (c.interactions.map encodeInteraction)).map
      (fun is => { name := c.name, recorded_at := c.recorded_at,
                   commit := c.commit, interactions := is }) = some c
  rw [decodeInteractions_map]
  rfl

/-! ### Join decomposition for the diagnostic listing -/

/-- Every element of a joined list appears verbatim inside the join. -/
theorem joinSep_mem_split (sep : String) (l : List String) (s : String)
    (h : s ∈ l) : ∃ a b, joinSep sep l = a ++ s ++ b := by
  induction l with
  | nil => cases h
  | cons hd tl ih =>
      rcases List.mem_cons.mp h with hh | hh
      · subst hh
        cases tl with
        | nil => exact ⟨"", "", by simp [joinSep]⟩
        | cons x xs =>
            exact ⟨"", sep ++ joinSep sep (x :: xs),
              by simp [joinSep, String.append_assoc]⟩
      · obtain ⟨a, b, hab⟩ := ih hh
        cases tl with
        | nil => cases hh
        | cons x xs =>
            refine ⟨hd ++ sep ++ a, b, ?_⟩
            simp [joinSep, hab, String.append_assoc]

/-! ### Run congruence: behaviour at a pair depends only on the queues and
that pair's cursor -/

/-- Two replayer states with the same queues and the same cursor for a pair
serve identical outcome sequences for that pair. -/
theorem runNext_congr (n : Nat) :
    ∀ (r₁ r₂ : CassetteReplayer) (p m : String),
      r₁.queues = r₂.queues →
      findVal r₁.cursors ⟨p, m⟩ = findVal r₂.cursors ⟨p, m⟩ →
      (runNext r₁ p m n).1 = (runNext r₂ p m n).1 := by
  induction n with
  | zero => intro r₁ r₂ p m _ _; rfl
  | succ n ih =>
      intro r₁ r₂ p m hq hc
      cases hq1 : findVal r₁.queues ⟨p, m⟩ with
      | none =>
          have hq2 : findVal r₂.queues ⟨p, m⟩ = none := by rw [← hq]; exact hq1
          rw [runNext_succ_err _ _ _ _ _ (next_interaction_unknown r₁ p m hq1),
            runNext_succ_err _ _ _ _ _ (next_interaction_unknown r₂ p m hq2), hq]
      | some q =>
          have hq2 : findVal r₂.queues ⟨p, m⟩ = some q := by rw [← hq]; exact hq1
          cases hc1 : findVal r₁.cursors ⟨p, m⟩ with
          | none =>
              have hc2 : findVal r₂.cursors ⟨p, m⟩ = none := by
                rw [← hc]; exact hc1
              have e1 : r₁.next_interaction p m = .error (.cursorMissing p m) := by
                simp [CassetteReplayer.next_interaction, hq1, hc1]
              have e2 : r₂.next_interaction p m = .error (.cursorMissing p m) := by
                simp [CassetteReplayer.next_interaction, hq2, hc2]
              rw [runNext_succ_err _ _ _ _ _ e1, runNext_succ_err _ _ _ _ _ e2]
          | some cur =>
              have hc2 : findVal r₂.cursors ⟨p, m⟩ = some cur := by
                rw [← hc]; exact hc1
              by_cases hlt : cur < q.length
              · have e1 := next_interaction_ok r₁ p m q cur hq1 hc1 hlt
                have e2 := next_interaction_ok r₂ p m q cur hq2 hc2 hlt
                rw [runNext_succ_ok _ _ _ _ _ _ e1, runNext_succ_ok _ _ _ _ _ _ e2]
                refine congrArg (List.cons _) (ih _ _ p m hq ?_)
                simp [findVal_updateVal_self, hc1, hc2]
              · have e1 := next_interaction_exhausted r₁ p m q cur hq1 hc1 hlt
                have e2 := next_interaction_exhausted r₂ p m q cur hq2 hc2 hlt
                rw [runNext_succ_err _ _ _ _ _ e1, runNext_succ_err _ _ _ _ _ e2]

/-! ### Claim theorems -/

/-- Claim C5: for every sequence of `record` calls on a fresh Recorder the
`seq` values of the accumulated interactions are contiguous from 0 in
insertion order, the single global counter equals the total number of
interactions recorded (one counter for all (port, method) pairs), and the
invariant carries through to the cassette `finish()` produces. -/
theorem claim_C5_seq_contiguous (path nm cm : String)
    (calls : List RecordCall) (now : Nat) :
    (recordAll (CassetteRecorder.new path nm cm) calls).interactions.map
        (fun i => i.seq) =
      List.range
        (recordAll (CassetteRecorder.new path nm cm)
          calls).interactions.length ∧
    (recordAll (CassetteRecorder.new path nm cm) calls).next_seq =
      (recordAll (CassetteRecorder.new path nm cm)
        calls).interactions.length ∧
    ((recordAll (CassetteRecorder.new path nm cm)
        calls).finish now).interactions.map (fun i => i.seq) =
      List.range
        ((recordAll (CassetteRecorder.new path nm cm)
          calls).finish now).interactions.length := by
  rw [recordAll_spec]
  simp [CassetteRecorder.new, CassetteRecorder.finish,
    callsToInteractions_map_seq, callsToInteractions_length,
    List.range_eq_range']

/-- Claim C8: the replaying adapter's outcome is independent of its request
argument: from equal states, `generate` yields identical results for any
two requests, because the adapter never consults its input and is driven
solely by the next recorded entry of the cassette. -/
theorem claim_C8_request_independent (g : ReplayingImageGenerator)
    (dec : JVal → Except String ImageResponse) (r1 r2 : ImageRequest) :
    g.generate dec r1 = g.generate dec r2 := rfl

/-- Claim C9: `load_cassette` always returns an ordinary result value (the
embedding is a total function into `Except`, never a panic): a read failure
or a parse failure yields an error message carrying the file path and the
underlying error, and a successful read and parse yields the replayer built
from the parsed cassette. -/
theorem claim_C9_load_errors (fsRead : String → Except String String)
    (parseC : String → Except String Cassette) (path : String) :
    (∀ e, fsRead path = .error e →
      load_cassette fsRead parseC path =
        .error ("Failed to read cassette file " ++ path ++ ": " ++ e)) ∧
    (∀ content e, fsRead path = .ok content → parseC content = .error e →
      load_cassette fsRead parseC path =
        .error ("Failed to parse cassette file " ++ path ++ ": " ++ e)) ∧
    (∀ content c, fsRead path = .ok content → parseC content = .ok c →
      load_cassette fsRead parseC path = .ok (CassetteReplayer.new c)) := by
  refine ⟨?_, ?_, ?_⟩
  · intro e he
    simp [load_cassette, he]
  · intro content e h1 h2
    simp [load_cassette, h1, h2]
  · intro content c h1 h2
    simp [load_cassette, h1, h2]

/-- Witness for C9: the three branches at concrete environments. -/
theorem claim_C9_load_errors_witness :
    load_cassette (fun _ => .error "No such file (os error 2)")
        (fun _ => .ok sampleMixedCassette) "/tmp/c.yaml" =
      .error ("Failed to read cassette file " ++ "/tmp/c.yaml" ++ ": " ++
        "No such file (os error 2)") ∧
    load_cassette (fun _ => .ok "not yaml")
        (fun _ => .error "invalid type") "/tmp/c.yaml" =
      .error ("Failed to parse cassette file " ++ "/tmp/c.yaml" ++ ": " ++
        "invalid type") ∧
    load_cassette (fun _ => .ok "good yaml")
        (fun _ => .ok sampleMixedCassette) "/tmp/c.yaml" =
      .ok (CassetteReplayer.new sampleMixedCassette) :=
  ⟨(claim_C9_load_errors (fun _ => .error "No such file (os error 2)")
      (fun _ => .ok sampleMixedCassette) "/tmp/c.yaml").1 _ rfl,
   (claim_C9_load_errors (fun _ => .ok "not yaml")
      (fun _ => .error "invalid type") "/tmp/c.yaml").2.1 _ _ rfl rfl,
   (claim_C9_load_errors (fun _ => .ok "good yaml")
      (fun _ => .ok sampleMixedCassette) "/tmp/c.yaml").2.2 _ _ rfl rfl⟩

/-- Claim C10: the decoder also accepts lowercase tags: an "err" key yields
a failure, an "ok" key's value is decoded as the success payload, the
Err/err check takes precedence over the Ok/ok check when both kinds of key
are present, and a non-string "Err" value falls back to the message
"replayed error". -/
theorem claim_C10_lowercase_tags {α : Type} (dec : JVal → Except String α)
    (o : JVal) :
    (∀ v, o.get "Err" = none → o.get "err" = some v →
      replay_result dec o = .error ((v.as_str).getD "replayed error")) ∧
    (∀ v, o.get "Err" = none → o.get "err" = none → o.get "Ok" = none →
      o.get "ok" = some v → replay_result dec o = dec v) ∧
    (∀ v, o.get "Err" = some v →
      replay_result dec o = .error ((v.as_str).getD "replayed error")) ∧
    (∀ v, o.get "Err" = some v → v.as_str = none →
      replay_result dec o = .error "replayed error") := by
  refine ⟨?_, ?_, ?_, ?_⟩
  · intro v h1 h2
    simp [replay_result, Option.or, h1, h2]
  · intro v h1 h2 h3 h4
    simp [replay_result, Option.or, h1, h2, h3, h4]
  · intro v h1
    simp [replay_result, Option.or, h1]
  · intro v h1 h2
    simp [replay_result, Option.or, h1, h2]

/-- Witness for C10: each lowercase/precedence/fallback behaviour at a
concrete output value. -/
theorem claim_C10_lowercase_tags_witness :
    replay_result (fun v => Except.ok v) (JVal.obj [("err", JVal.str "b")]) =
      .error "b" ∧
    replay_result (fun v => Except.ok v) (JVal.obj [("ok", JVal.str "p")]) =
      .ok (JVal.str "p") ∧
    replay_result (fun v => Except.ok v)
        (JVal.obj [("Err", JVal.str "x"), ("Ok", JVal.null)]) = .error "x" ∧
    replay_result (fun v => Except.ok v) (JVal.obj [("Err", JVal.num 5)]) =
      .error "replayed error" :=
  ⟨(claim_C10_lowercase_tags (fun v => Except.ok v) _).1 (JVal.str "b") rfl rfl,
   (claim_C10_lowercase_tags (fun v => Except.ok v) _).2.1 (JVal.str "p")
     rfl rfl rfl rfl,
   (claim_C10_lowercase_tags (fun v => Except.ok v) _).2.2.1 (JVal.str "x") rfl,
   (claim_C10_lowercase_tags (fun v => Except.ok v) _).2.2.2 (JVal.num 5)
     rfl rfl⟩

/-- Claim C7, counterexample: the output `{"err": "boom"}` carries neither
an "Ok" nor an "Err" tag, yet the decoder reports a failure instead of
treating the bare value as a successful result and deserializing the whole
value. -/
theorem claim_C7_counterexample :
    (JVal.obj [("err", JVal.str "boom")]).get "Ok" = none ∧
    (JVal.obj [("err", JVal.str "boom")]).get "Err" = none ∧
    replay_result (fun v => Except.ok v)
        (JVal.obj [("err", JVal.str "boom")]) = .error "boom" ∧
    replay_result (fun v => Except.ok v)
        (JVal.obj [("err", JVal.str "boom")]) ≠
      Except.ok (JVal.obj [("err", JVal.str "boom")]) := by
  refine ⟨rfl, rfl, rfl, ?_⟩
  intro h
  exact Except.noConfusion h

/-- Claim C7 as amended: for every replayed output carrying none of the tag
keys "Ok", "ok", "Err", "err", the decoder treats the bare value as a
successful result, deserializing the whole value as the success payload. -/
theorem claim_C7_untagged_fallback {α : Type} (dec : JVal → Except String α)
    (o : JVal) (h1 : o.get "Err" = none) (h2 : o.get "err" = none)
    (h3 : o.get "Ok" = none) (h4 : o.get "ok" = none) :
    replay_result dec o = dec o := by
  simp [replay_result, Option.or, h1, h2, h3, h4]

/-- Witness for amended C7 at a concrete untagged output. -/
theorem claim_C7_untagged_fallback_witness :
    replay_result (fun v => Except.ok v) (JVal.str "bare") =
      Except.ok (JVal.str "bare") :=
  claim_C7_untagged_fallback (fun v => Except.ok v) (JVal.str "bare")
    rfl rfl rfl rfl

/-- Claim C2: for every loaded cassette whose (port, method) group holds
exactly k records, k+1 successive calls serve the k records and then fail
fatally with the exhaustion error, whose message names the count k of
records that were available and states that all were consumed. -/
theorem claim_C2_exhaustion (c : Cassette) (p m : String)
    (h : groupOf c ⟨p, m⟩ ≠ []) :
    (runNext (CassetteReplayer.new c) p m
        ((groupOf c ⟨p, m⟩).length + 1)).1 =
      (groupOf c ⟨p, m⟩).map Except.ok ++
        [.error (.exhausted p m (groupOf c ⟨p, m⟩).length)] ∧
    (ReplayError.exhausted p m (groupOf c ⟨p, m⟩).length).message =
      "Cassette exhausted: all " ++ toString (groupOf c ⟨p, m⟩).length ++
        (" interactions for port=" ++ rustDebug p ++ " method=" ++
          rustDebug m ++ " have been consumed.") := by
  constructor
  · have hq := new_queues_findVal_group c ⟨p, m⟩ h
    have hc : findVal (CassetteReplayer.new c).cursors ⟨p, m⟩ = some 0 := by
      rw [new_cursors_findVal, hq]
      rfl
    have hrun := runNext_exhaust_run (groupOf c ⟨p, m⟩).length
      (CassetteReplayer.new c) p m (groupOf c ⟨p, m⟩) 0 hq hc (by omega)
    simpa using hrun
  · simp [ReplayError.message, String.append_assoc]

/-- Witness for C2 on the sample cassette: its "image_generator"/"generate"
group holds one record; the second call is the exhaustion failure. -/
theorem claim_C2_exhaustion_witness :
    (runNext (CassetteReplayer.new sampleMixedCassette) "image_generator"
        "generate"
        ((groupOf sampleMixedCassette
            ⟨"image_generator", "generate"⟩).length + 1)).1 =
      (groupOf sampleMixedCassette
          ⟨"image_generator", "generate"⟩).map Except.ok ++
        [.error (.exhausted "image_generator" "generate"
          (groupOf sampleMixedCassette
            ⟨"image_generator", "generate"⟩).length)] ∧
    (ReplayError.exhausted "image_generator" "generate"
        (groupOf sampleMixedCassette
          ⟨"image_generator", "generate"⟩).length).message =
      "Cassette exhausted: all " ++
        toString (groupOf sampleMixedCassette
          ⟨"image_generator", "generate"⟩).length ++
        (" interactions for port=" ++ rustDebug "image_generator" ++
          " method=" ++ rustDebug "generate" ++ " have been consumed.") :=
  claim_C2_exhaustion sampleMixedCassette "image_generator" "generate"
    (by simp [sampleMixedCassette, sampleCat, sampleOther, groupOf, keyOf])

/-- Claim C3: for every loaded cassette and a (port, method) pair occurring
in none of its interactions, `next_interaction` fails fatally with the
unknown-pair error, whose message reports the requested pair and contains
every (port, method) pair actually present in the cassette. -/
theorem claim_C3_unknown_pair (c : Cassette) (p m : String)
    (h : ∀ i ∈ c.interactions, ¬ (i.port = p ∧ i.method = m)) :
    (CassetteReplayer.new c).next_interaction p m =
      .error (.unknownPair p m
        ((CassetteReplayer.new c).queues.map fun kv =>
          kv.1.port ++ "::" ++ kv.1.method)) ∧
    (∃ a b, (ReplayError.unknownPair p m
        ((CassetteReplayer.new c).queues.map fun kv =>
          kv.1.port ++ "::" ++ kv.1.method)).message =
      a ++ rustDebug p ++ b) ∧
    (∃ a b, (ReplayError.unknownPair p m
        ((CassetteReplayer.new c).queues.map fun kv =>
          kv.1.port ++ "::" ++ kv.1.method)).message =
      a ++ rustDebug m ++ b) ∧
    ∀ i ∈ c.interactions, ∃ a b,
      (ReplayError.unknownPair p m
          ((CassetteReplayer.new c).queues.map fun kv =>
            kv.1.port ++ "::" ++ kv.1.method)).message =
        a ++ (i.port ++ "::" ++ i.method) ++ b := by
  have hgroup : groupOf c ⟨p, m⟩ = [] := by
    refine List.filter_eq_nil_iff.mpr fun a ha => ?_
    simpa [keyOf, PortMethodKey.mk.injEq] using h a ha
  refine ⟨next_interaction_unknown _ p m (new_queues_findVal_nil c _ hgroup),
    ⟨"Cassette exhausted: no interactions recorded for port=",
     " method=" ++ rustDebug m ++ ". Available port::method pairs: [" ++
       joinSep ", " ((CassetteReplayer.new c).queues.map fun kv =>
         kv.1.port ++ "::" ++ kv.1.method) ++ "]",
     by simp [ReplayError.message, String.append_assoc]⟩,
    ⟨"Cassette exhausted: no interactions recorded for port=" ++
       rustDebug p ++ " method=",
     ". Available port::method pairs: [" ++
       joinSep ", " ((CassetteReplayer.new c).queues.map fun kv =>
         kv.1.port ++ "::" ++ kv.1.method) ++ "]",
     by simp [ReplayError.message, String.append_assoc]⟩,
    fun i hi => ?_⟩
  have hne : groupOf c (keyOf i) ≠ [] := by
    have : i ∈ groupOf c (keyOf i) :=
      List.mem_filter.mpr ⟨hi, by simp⟩
    exact List.ne_nil_of_mem this
  obtain ⟨kv, hkvmem, hkv1⟩ :=
    findVal_mem_keys _ _ _ (new_queues_findVal_group c (keyOf i) hne)
  have hmem : (i.port ++ "::" ++ i.method) ∈
      ((CassetteReplayer.new c).queues.map fun kv =>
        kv.1.port ++ "::" ++ kv.1.method) := by
    refine List.mem_map.mpr ⟨kv, hkvmem, ?_⟩
    rw [hkv1]
    rfl
  obtain ⟨a, b, hab⟩ := joinSep_mem_split ", " _ _ hmem
  refine ⟨"Cassette exhausted: no interactions recorded for port=" ++
      rustDebug p ++ " method=" ++ rustDebug m ++
      ". Available port::method pairs: [" ++ a,
    b ++ "]", ?_⟩
  simp only [ReplayError.message]
  rw [hab]
  simp [String.append_assoc]

/-- Witness for C3: the pair ("missing", "pair") occurs nowhere in the
sample cassette. -/
theorem claim_C3_unknown_pair_witness :
    (CassetteReplayer.new sampleMixedCassette).next_interaction
        "missing" "pair" =
      .error (.unknownPair "missing" "pair"
        ((CassetteReplayer.new sampleMixedCassette).queues.map fun kv =>
          kv.1.port ++ "::" ++ kv.1.method)) ∧
    (∃ a b, (ReplayError.unknownPair "missing" "pair"
        ((CassetteReplayer.new sampleMixedCassette).queues.map fun kv =>
          kv.1.port ++ "::" ++ kv.1.method)).message =
      a ++ rustDebug "missing" ++ b) ∧
    (∃ a b, (ReplayError.unknownPair "missing" "pair"
        ((CassetteReplayer.new sampleMixedCassette).queues.map fun kv =>
          kv.1.port ++ "::" ++ kv.1.method)).message =
      a ++ rustDebug "pair" ++ b) ∧
    ∀ i ∈ sampleMixedCassette.interactions, ∃ a b,
      (ReplayError.unknownPair "missing" "pair"
          ((CassetteReplayer.new sampleMixedCassette).queues.map fun kv =>
            kv.1.port ++ "::" ++ kv.1.method)).message =
        a ++ (i.port ++ "::" ++ i.method) ++ b :=
  claim_C3_unknown_pair sampleMixedCassette "missing" "pair"
    (by simp [sampleMixedCassette, sampleCat, sampleOther])

/-- Claim C4: a successful `next_interaction` call for pair A leaves the
queue and cursor of any distinct pair B unchanged, and the outcome sequence
subsequently served for B is the same as if the A call had not happened. -/
theorem claim_C4_partition_independence (r r' : CassetteReplayer)
    (pA mA pB mB : String) (i : Interaction) (n : Nat)
    (hne : (⟨pA, mA⟩ : PortMethodKey) ≠ ⟨pB, mB⟩)
    (hok : r.next_interaction pA mA = .ok (i, r')) :
    findVal r'.queues ⟨pB, mB⟩ = findVal r.queues ⟨pB, mB⟩ ∧
    findVal r'.cursors ⟨pB, mB⟩ = findVal r.cursors ⟨pB, mB⟩ ∧
    (runNext r' pB mB n).1 = (runNext r pB mB n).1 := by
  obtain ⟨hq, cur, hcur, hcursors⟩ := next_interaction_ok_inv r pA mA i r' hok
  have hcB : findVal r'.cursors ⟨pB, mB⟩ = findVal r.cursors ⟨pB, mB⟩ := by
    rw [hcursors]
    exact findVal_updateVal_other _ _ _ _ hne
  exact ⟨by rw [hq], hcB, runNext_congr n r' r pB mB hq hcB⟩

/-- Witness for C4: consuming the "image_generator"/"generate" record of
the sample cassette leaves the "other_port"/"other_method" group
untouched. -/
theorem claim_C4_partition_independence_witness :
    findVal sampleMixedAfter.queues ⟨"other_port", "other_method"⟩ =
      findVal sampleMixedReplayer.queues ⟨"other_port", "other_method"⟩ ∧
    findVal sampleMixedAfter.cursors ⟨"other_port", "other_method"⟩ =
      findVal sampleMixedReplayer.cursors ⟨"other_port", "other_method"⟩ ∧
    (runNext sampleMixedAfter "other_port" "other_method" 2).1 =
      (runNext sampleMixedReplayer "other_port" "other_method" 2).1 :=
  claim_C4_partition_independence sampleMixedReplayer sampleMixedAfter
    "image_generator" "generate" "other_port" "other_method" sampleCat 2
    (by decide) rfl

/-- Claim C1: recording N interactions for one (port, method) pair,
finishing, loading the persisted document, and serving N
`next_interaction` calls yields the N records in exactly the original call
order, each with the port, method, input and output passed to the
corresponding `record` call. -/
theorem claim_C1_order_preservation (path nm cm port method : String)
    (ps : List (JVal × JVal)) (now : Nat) :
    decodeCassette (encodeCassette
        ((recordAll (CassetteRecorder.new path nm cm)
            (ps.map fun io => (port, method, io.1, io.2))).finish now)) =
      some ((recordAll (CassetteRecorder.new path nm cm)
          (ps.map fun io => (port, method, io.1, io.2))).finish now) ∧
    ∀ (k : Nat) (hk : k < ps.length),
      (runNext (CassetteReplayer.new
          ((recordAll (CassetteRecorder.new path nm cm)
              (ps.map fun io => (port, method, io.1, io.2))).finish now))
          port method ps.length).1[k]? =
        some (.ok { seq := k, port := port, method := method,
                    input := (ps.get ⟨k, hk⟩).1,
                    output := (ps.get ⟨k, hk⟩).2 }) := by
  refine ⟨decodeCassette_encodeCassette _, ?_⟩
  intro k hk
  have hcass : ((recordAll (CassetteRecorder.new path nm cm)
      (ps.map fun io => (port, method, io.1, io.2))).finish now).interactions =
      callsToInteractions 0 (ps.map fun io => (port, method, io.1, io.2)) := by
    rw [CassetteRecorder.finish, recordAll_spec]
    simp [CassetteRecorder.new]
  have hlen : (callsToInteractions 0
      (ps.map fun io => (port, method, io.1, io.2))).length = ps.length := by
    rw [callsToInteractions_length]
    simp
  have hgroup : groupOf ((recordAll (CassetteRecorder.new path nm cm)
      (ps.map fun io => (port, method, io.1, io.2))).finish now)
      ⟨port, method⟩ =
      callsToInteractions 0 (ps.map fun io => (port, method, io.1, io.2)) := by
    rw [groupOf, hcass]
    refine List.filter_eq_self.mpr fun a ha => ?_
    simpa using callsToInteractions_same_pair_mem port method ps 0 a ha
  have hneq : callsToInteractions 0
      (ps.map fun io => (port, method, io.1, io.2)) ≠ [] := by
    intro h0
    rw [h0] at hlen
    simp at hlen
    omega
  have hq : findVal (CassetteReplayer.new
      ((recordAll (CassetteRecorder.new path nm cm)
          (ps.map fun io => (port, method, io.1, io.2))).finish now)).queues
      ⟨port, method⟩ =
      some (callsToInteractions 0
        (ps.map fun io => (port, method, io.1, io.2))) := by
    rw [new_queues_findVal_group _ _ (by rw [hgroup]; exact hneq), hgroup]
  have hc : findVal (CassetteReplayer.new
      ((recordAll (CassetteRecorder.new path nm cm)
          (ps.map fun io => (port, method, io.1, io.2))).finish now)).cursors
      ⟨port, method⟩ = some 0 := by
    rw [new_cursors_findVal, hq]
    rfl
  obtain ⟨h1, -, -, -⟩ := runNext_ok_run ps.length _ port method _ 0 hq hc
    (by rw [hlen]; omega)
  rw [h1, List.drop_zero, List.take_of_length_le hlen.le, List.getElem?_map,
    callsToInteractions_same_pair port method ps 0 k hk]
  simp

/-- Witness for C1 on the repository's own two-call scenario (a cat, then a
dog): index 1 of the replay run returns the second record. -/
theorem claim_C1_order_preservation_witness :
    decodeCassette (encodeCassette
        ((recordAll (CassetteRecorder.new "/tmp/t.yaml" "test-recording"
            "deadbeef")
            ([(JVal.obj [("prompt", JVal.str "a cat")],
               JVal.obj [("Ok", JVal.obj [("images", JVal.arr [])])]),
              (JVal.obj [("prompt", JVal.str "a dog")],
               JVal.obj [("Ok", JVal.obj [("images", JVal.arr [])])])].map
              fun io => ("image_generator", "generate", io.1, io.2))).finish
          0)) =
      some ((recordAll (CassetteRecorder.new "/tmp/t.yaml" "test-recording"
          "deadbeef")
          ([(JVal.obj [("prompt", JVal.str "a cat")],
             JVal.obj [("Ok", JVal.obj [("images", JVal.arr [])])]),
            (JVal.obj [("prompt", JVal.str "a dog")],
             JVal.obj [("Ok", JVal.obj [("images", JVal.arr [])])])].map
            fun io => ("image_generator", "generate", io.1, io.2))).finish
        0) ∧
    (runNext (CassetteReplayer.new
        ((recordAll (CassetteRecorder.new "/tmp/t.yaml" "test-recording"
            "deadbeef")
            ([(JVal.obj [("prompt", JVal.str "a cat")],
               JVal.obj [("Ok", JVal.obj [("images", JVal.arr [])])]),
              (JVal.obj [("prompt", JVal.str "a dog")],
               JVal.obj [("Ok", JVal.obj [("images", JVal.arr [])])])].map
              fun io => ("image_generator", "generate", io.1, io.2))).finish
          0)) "image_generator" "generate" 2).1[1]? =
      some (.ok { seq := 1, port := "image_generator", method := "generate",
                  input := JVal.obj [("prompt", JVal.str "a dog")],
                  output := JVal.obj [("Ok",
                    JVal.obj [("images", JVal.arr [])])] }) :=
  ⟨(claim_C1_order_preservation "/tmp/t.yaml" "test-recording" "deadbeef"
      "image_generator" "generate" _ 0).1,
   (claim_C1_order_preservation "/tmp/t.yaml" "test-recording" "deadbeef"
      "image_generator" "generate" _ 0).2 1 (by decide)⟩

/-- Claim C6: recording a success `Ok(v)` and then a failure `Err(e)` for
one (port, method) pair (tagged as `{"Ok": v}` and `{"Err": e}`), then
replaying both outputs in order through the decoder yields first a success
whose payload deserializes back to `v` and second a failure whose message
equals the error's string representation. -/
theorem claim_C6_tagging_round_trip {α : Type} (path nm cm p m : String)
    (i1 i2 : JVal) (now : Nat) (enc : α → JVal)
    (dec : JVal → Except String α) (v : α) (eStr : String)
    (hdec : dec (enc v) = .ok v) :
    (runNext (CassetteReplayer.new
        ((record_result (record_result (CassetteRecorder.new path nm cm)
              p m i1 (.ok (enc v))) p m i2 (.error eStr)).finish now))
        p m 2).1 =
      [.ok { seq := 0, port := p, method := m, input := i1,
             output := .obj [("Ok", enc v)] },
       .ok { seq := 1, port := p, method := m, input := i2,
             output := .obj [("Err", .str eStr)] }] ∧
    replay_result dec (JVal.obj [("Ok", enc v)]) = .ok v ∧
    replay_result dec (JVal.obj [("Err", .str eStr)]) = .error eStr := by
  refine ⟨?_, hdec, rfl⟩
  have hgroup : groupOf ((record_result (record_result
      (CassetteRecorder.new path nm cm) p m i1 (.ok (enc v))) p m i2
      (.error eStr)).finish now) ⟨p, m⟩ =
      [{ seq := 0, port := p, method := m, input := i1,
         output := .obj [("Ok", enc v)] },
       { seq := 1, port := p, method := m, input := i2,
         output := .obj [("Err", .str eStr)] }] := by
    simp [groupOf, keyOf, record_result, CassetteRecorder.record,
      CassetteRecorder.new, CassetteRecorder.finish]
  have hq := new_queues_findVal_group _ ⟨p, m⟩
    (by rw [hgroup]; exact List.cons_ne_nil _ _)
  rw [hgroup] at hq
  have hc : findVal (CassetteReplayer.new
      ((record_result (record_result (CassetteRecorder.new path nm cm)
            p m i1 (.ok (enc v))) p m i2 (.error eStr)).finish now)).cursors
      ⟨p, m⟩ = some 0 := by
    rw [new_cursors_findVal, hq]
    rfl
  obtain ⟨h1, -, -, -⟩ := runNext_ok_run 2 _ p m _ 0 hq hc (by simp)
  rw [h1]
  rfl

/-- Witness for C6 with the identity serializer at `v = null` and the
error string "boom". -/
theorem claim_C6_tagging_round_trip_witness :
    (runNext (CassetteReplayer.new
        ((record_result (record_result (CassetteRecorder.new "/tmp/t.yaml"
              "n" "c") "image_generator" "generate" JVal.null
              (.ok JVal.null)) "image_generator" "generate" JVal.null
            (.error "boom")).finish 0)) "image_generator" "generate" 2).1 =
      [.ok { seq := 0, port := "image_generator", method := "generate",
             input := JVal.null, output := .obj [("Ok", JVal.null)] },
       .ok { seq := 1, port := "image_generator", method := "generate",
             input := JVal.null, output := .obj [("Err", .str "boom")] }] ∧
    replay_result (fun x => Except.ok x) (JVal.obj [("Ok", JVal.null)]) =
      .ok JVal.null ∧
    replay_result (fun x => Except.ok x) (JVal.obj [("Err", .str "boom")]) =
      .error "boom" :=
  claim_C6_tagging_round_trip "/tmp/t.yaml" "n" "c" "image_generator"
    "generate" JVal.null JVal.null 0 (fun x => x) (fun x => Except.ok x)
    JVal.null "boom" rfl

end Imagen
